import Mathlib

/-!
Verification development for the `ih-leaflet-velocity-ts-irregular` repository.

The embedding models JavaScript numbers as exact rationals (`ℚ`), nullable
values as `Option`, and mutable per-tick state as explicit state passing.
The central sources are `src/irregularGrid.ts` (irregular grid sampling with
International-Date-Line handling) and `src/windy.ts` (data loading, the
simulation loop and particle wind sampling).
-/

/-- Tolerance used throughout `irregularGrid.ts` (`private EPS = 1e-6`). -/
def EPS : ℚ := 1 / 1000000

/-- Integer truncation toward zero, as JavaScript does for its `%` operator. -/
def truncQ (q : ℚ) : ℤ := if 0 ≤ q then ⌊q⌋ else ⌈q⌉

/-- JavaScript remainder `a % n`: `a - n * trunc(a / n)`. -/
def jsMod (a n : ℚ) : ℚ := a - n * (truncQ (a / n) : ℚ)

/-- `((x % 360) + 360) % 360`, the normalization into `[0, 360)` used by
`IrregularGrid.get` and `findBracketingIndices` (irregularGrid.ts lines 116, 182). -/
def wrap360 (x : ℚ) : ℚ := jsMod (jsMod x 360 + 360) 360

/-- `((lng + 180) % 360 + 360) % 360 - 180`, the wrap used by
`Windy.getParticuleWind` (windy.ts line 405). -/
def wrapLon (lng : ℚ) : ℚ := wrap360 (lng + 180) - 180

/-- Modelled from the spec: `vector.ts` is absent from `src/`.  Per spec §3 a
Vector is `{u: float, v: float, waveHeight: float|undefined}`; the derived
`intensity = sqrt(u²+v²)` is kept in squared form since it is never compared
numerically by any claim. -/
structure Vector where
  u : ℚ
  v : ℚ
  waveHeight : Option ℚ
deriving DecidableEq, Repr

/-- The sentinel `new Vector(0, 0, 0)` returned by `IrregularGrid.get`. -/
def zeroVec : Vector := ⟨0, 0, some 0⟩

/-- Squared intensity `u*u + v*v` (spec §3, kept squared to stay rational). -/
def Vector.intensitySq (w : Vector) : ℚ := w.u * w.u + w.v * w.v

/-- `Math.min(...l)` for a nonempty list (`0` as an arbitrary default for `[]`,
which the spec invariant `length ≥ 1` rules out). -/
def listMinD : List ℚ → ℚ
  | [] => 0
  | h :: t => t.foldl min h

/-- `Math.max(...l)` for a nonempty list. -/
def listMaxD : List ℚ → ℚ
  | [] => 0
  | h :: t => t.foldl max h

/-- JS truthiness of an optional wave height: defined and nonzero
(`g00.waveHeight && ...` in irregularGrid.ts line 234). -/
def whTruthy (o : Option ℚ) : Bool :=
  match o with
  | none => false
  | some w => decide (w ≠ 0)

/-- `IrregularGrid.detectDateLineCrossing` (irregularGrid.ts lines 74-90):
true iff the list has at least two entries, some entry exceeds 90 and some
entry is below -90. -/
def detectIDL (lons : List ℚ) : Bool :=
  decide (2 ≤ lons.length) && lons.any (fun l => decide (90 < l)) &&
    lons.any (fun l => decide (l < -90))

/-- One step of the unrolled-longitude construction (irregularGrid.ts lines
52-61): lift the normalized value by 360 on a backward jump against the
previous normalized value, then by whole multiples of 360 if it still falls
behind the previous unrolled value. -/
def unrollStep (prevN prevU v0 : ℚ) : ℚ :=
  let v1 := if v0 + EPS < prevN then v0 + 360 else v0
  if v1 + EPS < prevU then v1 + 360 * ((⌈(prevU - v1) / 360⌉ : ℤ) : ℚ) else v1

/-- Tail of the unrolled-longitude array, carrying the previous normalized and
previous unrolled values. -/
def unrollAux (prevN prevU : ℚ) : List ℚ → List ℚ
  | [] => []
  | n :: ns => unrollStep prevN prevU n :: unrollAux n (unrollStep prevN prevU n) ns

/-- The strictly-increasing unrolled copy of the normalized longitudes built by
the `IrregularGrid` constructor when the grid crosses the IDL. -/
def unrolled : List ℚ → List ℚ
  | [] => []
  | n :: ns => n :: unrollAux n n ns

/-- `IrregularGrid` state: constructor arguments (irregularGrid.ts lines 28-33).
`data` entries are `Option Vector` because the row-major array may hold
null/undefined cells; all other fields of the class are derived below. -/
structure IrregularGrid where
  data : List (Option Vector)
  latitudes : List ℚ
  longitudes : List ℚ
deriving DecidableEq, Repr

namespace IrregularGrid

/-- `this.width = longitudes.length`. -/
def width (g : IrregularGrid) : ℕ := g.longitudes.length

/-- `this.height = latitudes.length`. -/
def height (g : IrregularGrid) : ℕ := g.latitudes.length

/-- `this.crossesIDL = this.detectDateLineCrossing(longitudes)`. -/
def crossesIDL (g : IrregularGrid) : Bool := detectIDL g.longitudes

/-- `this.latMin = Math.min(...latitudes)`. -/
def latMin (g : IrregularGrid) : ℚ := listMinD g.latitudes

/-- `this.latMax = Math.max(...latitudes)`. -/
def latMax (g : IrregularGrid) : ℚ := listMaxD g.latitudes

/-- `this.latAscending = latitudes[0] <= latitudes[latitudes.length - 1]`. -/
def latAscending (g : IrregularGrid) : Bool :=
  decide (g.latitudes.getD 0 0 ≤ g.latitudes.getD (g.latitudes.length - 1) 0)

/-- `this.lonAscending = longitudes[0] <= longitudes[longitudes.length - 1]`
(assigned only in the non-IDL branch; used only there too). -/
def lonAscending (g : IrregularGrid) : Bool :=
  decide (g.longitudes.getD 0 0 ≤ g.longitudes.getD (g.longitudes.length - 1) 0)

/-- `this.normLongitudes = longitudes.map(lng => lng < 0 ? lng + 360 : lng)`. -/
def normLongitudes (g : IrregularGrid) : List ℚ :=
  g.longitudes.map (fun l => if l < 0 then l + 360 else l)

/-- `this.unrolledLongitudes` precomputed by the constructor (IDL case). -/
def unrolledLongitudes (g : IrregularGrid) : List ℚ := unrolled g.normLongitudes

/-- `this.lonMin`: from normalized longitudes when crossing the IDL, raw ones
otherwise (irregularGrid.ts lines 64, 68). -/
def lonMin (g : IrregularGrid) : ℚ :=
  if g.crossesIDL then listMinD g.normLongitudes else listMinD g.longitudes

/-- `this.lonMax` (irregularGrid.ts lines 65, 69). -/
def lonMax (g : IrregularGrid) : ℚ :=
  if g.crossesIDL then listMaxD g.normLongitudes else listMaxD g.longitudes

/-- `data[i]` with JS out-of-range reads giving `undefined`. -/
def dataAt (g : IrregularGrid) (i : ℕ) : Option Vector := g.data.getD i none

/-- The normalized query longitude of `get` (irregularGrid.ts lines 113-117). -/
def queryLon (g : IrregularGrid) (lam : ℚ) : ℚ :=
  if g.crossesIDL then wrap360 lam else lam

/-- The quick bounds reject of `get` (irregularGrid.ts line 120). -/
def outOfRange (g : IrregularGrid) (lam phi : ℚ) : Bool :=
  decide (g.queryLon lam < g.lonMin - EPS) || decide (g.queryLon lam > g.lonMax + EPS) ||
    decide (phi < g.latMin - EPS) || decide (phi > g.latMax + EPS)

end IrregularGrid

/-- The direction-aware comparison of the bracketing binary search
(`isAscending ? (mv < value) : (mv > value)`, irregularGrid.ts lines 196, 214). -/
def cmpDir (asc : Bool) (mv value : ℚ) : Bool :=
  if asc then decide (mv < value) else decide (value < mv)

/-- The `while (left < right - 1)` bisection loop shared by both branches of
`findBracketingIndices` (irregularGrid.ts lines 191-198 and 209-216), with an
explicit fuel argument standing in for the loop (any fuel at least
`right - left` makes the guard, not the fuel, terminate the loop). -/
def bsearchAux (arr : List ℚ) (value : ℚ) (asc : Bool) : ℕ → ℕ → ℕ → ℕ × ℕ
  | 0, left, right => (left, right)
  | fuel + 1, left, right =>
    if left < right - 1 then
      if |arr.getD ((left + right) / 2) 0 - value| ≤ EPS then
        ((left + right) / 2, (left + right) / 2)
      else if cmpDir asc (arr.getD ((left + right) / 2) 0) value then
        bsearchAux arr value asc fuel ((left + right) / 2) right
      else
        bsearchAux arr value asc fuel left ((left + right) / 2)
    else (left, right)

/-- Non-IDL branch of `IrregularGrid.findBracketingIndices` (irregularGrid.ts
lines 201-217): endpoint bounds check, then bisection over the raw array. -/
def findBracketMono (arr : List ℚ) (value : ℚ) (asc : Bool) : Option (ℕ × ℕ) :=
  if value < min (arr.getD 0 0) (arr.getD (arr.length - 1) 0) - EPS ∨
     value > max (arr.getD 0 0) (arr.getD (arr.length - 1) 0) + EPS then none
  else some (bsearchAux arr value asc arr.length 0 (arr.length - 1))

/-- IDL branch of `IrregularGrid.findBracketingIndices` (irregularGrid.ts lines
180-198): renormalize the query, possibly lift it above the first unrolled
value, bounds check against the unrolled endpoints, then ascending bisection. -/
def findBracketIDL (unrolledArr : List ℚ) (value : ℚ) : Option (ℕ × ℕ) :=
  let sv0 := wrap360 value
  let sv := if sv0 + EPS < unrolledArr.getD 0 0 then sv0 + 360 else sv0
  if sv < unrolledArr.getD 0 0 - EPS ∨
     sv > unrolledArr.getD (unrolledArr.length - 1) 0 + EPS then none
  else some (bsearchAux unrolledArr sv true unrolledArr.length 0 (unrolledArr.length - 1))

namespace IrregularGrid

/-- Longitude bracketing of `get` (irregularGrid.ts lines 125-129): unrolled
search when crossing the IDL, raw direction-aware search otherwise. -/
def lonBracket (g : IrregularGrid) (lam : ℚ) : Option (ℕ × ℕ) :=
  if g.crossesIDL then findBracketIDL g.unrolledLongitudes (g.queryLon lam)
  else findBracketMono g.longitudes (g.queryLon lam) g.lonAscending

/-- Latitude bracketing of `get` (irregularGrid.ts line 130). -/
def latBracket (g : IrregularGrid) (phi : ℚ) : Option (ℕ × ℕ) :=
  findBracketMono g.latitudes phi g.latAscending

end IrregularGrid

/-- `IrregularGrid.interpolation` (irregularGrid.ts lines 222-242): bilinear
blend of the four corners; the wave height is blended only when all four
corner wave heights are truthy, and a negative blend is clamped to 0. -/
def interpolation (x y : ℚ) (g00 g10 g01 g11 : Vector) : Vector :=
  let rx := 1 - x
  let ry := 1 - y
  let a := rx * ry
  let b := x * ry
  let c := rx * y
  let d := x * y
  let u := g00.u * a + g10.u * b + g01.u * c + g11.u * d
  let v := g00.v * a + g10.v * b + g01.v * c + g11.v * d
  let wh : Option ℚ :=
    if whTruthy g00.waveHeight && whTruthy g10.waveHeight &&
       whTruthy g01.waveHeight && whTruthy g11.waveHeight then
      let s := g00.waveHeight.getD 0 * a + g10.waveHeight.getD 0 * b +
        g01.waveHeight.getD 0 * c + g11.waveHeight.getD 0 * d
      some (if s < 0 then 0 else s)
    else none
  Vector.mk u v wh

/-- Everything `get` computes between the two bracketing searches and the
final blend (irregularGrid.ts lines 136-168): bracketing indices, corner
coordinates (IDL-normalized), interpolation weights (clamped to [0,1]) and the
four corner vectors. -/
structure BlendInput where
  lonIdx0 : ℕ
  lonIdx1 : ℕ
  latIdx0 : ℕ
  latIdx1 : ℕ
  lon0 : ℚ
  lon1 : ℚ
  lat0 : ℚ
  lat1 : ℚ
  x : ℚ
  y : ℚ
  g00 : Vector
  g10 : Vector
  g01 : Vector
  g11 : Vector
deriving DecidableEq, Repr

/-- Corner coordinates and weights of `get` (irregularGrid.ts lines 150-168)
assembled from the bracketing indices and corner vectors. -/
def mkBlend (g : IrregularGrid) (ql phi : ℚ) (li0 li1 ti0 ti1 : ℕ)
    (v00 v10 v01 v11 : Vector) : BlendInput :=
  let lon0r := g.longitudes.getD li0 0
  let lon1r := g.longitudes.getD li1 0
  let lon0 := if g.crossesIDL then (if lon0r < 0 then lon0r + 360 else lon0r) else lon0r
  let lon1 := if g.crossesIDL then (if lon1r < 0 then lon1r + 360 else lon1r) else lon1r
  let lat0 := g.latitudes.getD ti0 0
  let lat1 := g.latitudes.getD ti1 0
  let tx := if lon1 ≠ lon0 then (ql - lon0) / (lon1 - lon0) else 0
  let ty := if lat1 ≠ lat0 then (phi - lat0) / (lat1 - lat0) else 0
  { lonIdx0 := li0, lonIdx1 := li1, latIdx0 := ti0, latIdx1 := ti1,
    lon0 := lon0, lon1 := lon1, lat0 := lat0, lat1 := lat1,
    x := max 0 (min 1 tx), y := max 0 (min 1 ty),
    g00 := v00, g10 := v10, g01 := v01, g11 := v11 }

namespace IrregularGrid

/-- The body of `IrregularGrid.get` up to (but excluding) the final blend:
`none` on the bounds reject, on a failed bracketing search, or on a
null/undefined corner; otherwise the blend input (irregularGrid.ts 110-168). -/
def getCore (g : IrregularGrid) (lam phi : ℚ) : Option BlendInput :=
  if g.outOfRange lam phi then none
  else
    match g.lonBracket lam, g.latBracket phi with
    | some (li0, li1), some (ti0, ti1) =>
      match g.dataAt (ti0 * g.width + li0), g.dataAt (ti0 * g.width + li1),
            g.dataAt (ti1 * g.width + li0), g.dataAt (ti1 * g.width + li1) with
      | some v00, some v10, some v01, some v11 =>
        some (mkBlend g (g.queryLon lam) phi li0 li1 ti0 ti1 v00 v10 v01 v11)
      | _, _, _, _ => none
    | _, _ => none

/-- `IrregularGrid.get` (irregularGrid.ts lines 110-172): the zero vector on
any failure path, the bilinear blend otherwise. -/
def get (g : IrregularGrid) (lam phi : ℚ) : Vector :=
  match g.getCore lam phi with
  | none => zeroVec
  | some bi => interpolation bi.x bi.y bi.g00 bi.g10 bi.g01 bi.g11

end IrregularGrid

/-- A GRIB-style record header as read by `Windy.setData` (windy.ts lines
115, 215-220): classification pair plus the regular-grid geometry fields. -/
structure RecHeader where
  parameterCategory : ℤ
  parameterNumber : ℤ
  la1 : ℚ
  lo1 : ℚ
  dx : ℚ
  dy : ℚ
  nx : ℕ
  ny : ℕ
deriving DecidableEq, Repr

/-- One input record: header plus flat data array. -/
structure Rec where
  header : RecHeader
  data : List ℚ
deriving DecidableEq, Repr

/-- The `data` argument of `Windy.setData`: a JS value that may be an array of
records and may carry `latitudes`/`longitudes` properties (windy.ts lines
113, 143). -/
structure InputData where
  isArray : Bool
  records : List Rec
  latitudes : Option (List ℚ)
  longitudes : Option (List ℚ)
deriving DecidableEq, Repr

/-- The switch cases `"1,2"`/`"2,2"` of `Windy.setData` (windy.ts lines
116-117): the record is a u-component. -/
def isURec (r : Rec) : Bool :=
  (decide (r.header.parameterCategory = 1) && decide (r.header.parameterNumber = 2)) ||
    (decide (r.header.parameterCategory = 2) && decide (r.header.parameterNumber = 2))

/-- The switch cases `"1,3"`/`"2,3"` (windy.ts lines 120-121): v-component. -/
def isVRec (r : Rec) : Bool :=
  (decide (r.header.parameterCategory = 1) && decide (r.header.parameterNumber = 3)) ||
    (decide (r.header.parameterCategory = 2) && decide (r.header.parameterNumber = 3))

/-- One iteration of the `data.forEach` classification switch (windy.ts lines
114-127); the accumulator is `(uData, vData, waveHeight)` and a later matching
record overwrites an earlier one. -/
def classifyStep (acc : Option Rec × Option Rec × Option Rec) (r : Rec) :
    Option Rec × Option Rec × Option Rec :=
  if isURec r then (some r, acc.2.1, acc.2.2)
  else if isVRec r then (acc.1, some r, acc.2.2)
  else (acc.1, acc.2.1, some r)

/-- The full classification pass over the record list. -/
def scanRecords (rs : List Rec) : Option Rec × Option Rec × Option Rec :=
  rs.foldl classifyStep (none, none, none)

/-- The vector list built from the u and v record by
`uData.data.forEach(...)` (windy.ts lines 136-139); a missing wave-height
entry is `undefined`. -/
def buildVectors (u v : List ℚ) (wh : Option (List ℚ)) : List Vector :=
  u.mapIdx (fun i uu =>
    Vector.mk uu (v.getD i 0) (match wh with | none => none | some ws => ws.get? i))

/-- Modelled from the spec: `grid.ts` is absent from `src/`.  The constructed
grid object only records the Vector array handed to it together with the
header geometry (spec §3 RegularGrid), or is an `IrregularGrid`. -/
inductive GridVariant where
  | regular (data : List Vector) (la1 lo1 dy dx : ℚ) (ny nx : ℕ)
  | irregular (g : IrregularGrid)
deriving DecidableEq, Repr

/-- The grid-related fields of the `Windy` class that `setData` assigns
(windy.ts lines 26-33). -/
structure WindyState where
  grid : Option GridVariant
  isIrregularGrid : Bool
  lam0 : ℚ
  phi0 : ℚ
  dlam : ℚ
  dphi : ℚ
  ni : ℕ
  nj : ℕ
deriving DecidableEq, Repr

/-- `Windy.setData` (windy.ts lines 107-280) restricted to its state effect:
classify records (only when the input is an array), reject the load as a no-op
when the u or v component is missing, otherwise build the vector list once,
then construct either an `IrregularGrid` (when `latitudes`/`longitudes` are
present) or a regular grid.  The regular branch runs the building `forEach` a
second time (lines 208-211), so the regular grid receives the vectors twice. -/
def setData (st : WindyState) (d : InputData) : WindyState :=
  let scanned := if d.isArray then scanRecords d.records else (none, none, none)
  match scanned.1, scanned.2.1 with
  | some uRec, some vRec =>
    let vectors := buildVectors uRec.data vRec.data (scanned.2.2.map Rec.data)
    match d.latitudes, d.longitudes with
    | some lats, some lons =>
      let w := lons.length
      let h := lats.length
      let g := IrregularGrid.mk (vectors.map some) lats lons
      let crosses := detectIDL lons
      let lam0 :=
        if crosses then
          let m := listMinD (lons.map (fun l => if l < 0 then l + 360 else l))
          if m > 180 then m - 360 else m
        else listMinD lons
      { grid := some (GridVariant.irregular g), isIrregularGrid := true,
        lam0 := lam0, phi0 := listMaxD lats,
        dlam := if 1 < w then (listMaxD lons - lam0) / (w - 1 : ℕ) else 1,
        dphi := if 1 < h then (listMaxD lats - listMinD lats) / (h - 1 : ℕ) else 1,
        ni := w, nj := h }
    | _, _ =>
      let gridList := vectors ++ vectors
      { grid := some (GridVariant.regular gridList uRec.header.la1 uRec.header.lo1
          uRec.header.dy uRec.header.dx uRec.header.ny uRec.header.nx),
        isIrregularGrid := false,
        lam0 := uRec.header.lo1, phi0 := uRec.header.la1,
        dlam := uRec.header.dx, dphi := uRec.header.dy,
        ni := uRec.header.nx, nj := uRec.header.ny }
  | _, _ => st

/-- Length of the Vector array handed to the constructed grid by `setData`. -/
def gridDataLength (st : WindyState) : ℕ :=
  match st.grid with
  | some (GridVariant.regular l _ _ _ _ _ _) => l.length
  | some (GridVariant.irregular g) => g.data.length
  | none => 0

/-- Modelled from the spec: `particle.ts` is absent from `src/`.  Per spec §3
a Particle has a pixel position, a target, an integer age with a maximum,
and derived intensity/waveHeight; `isDead` is `age ≥ max age` and `grow()`
increments the age (spec §4.4). -/
structure Particule where
  x : ℚ
  y : ℚ
  xt : ℚ
  yt : ℚ
  age : ℕ
  maxAge : ℕ
  intensitySq : ℚ
  waveHeight : Option ℚ
deriving DecidableEq, Repr

instance : Inhabited Particule := ⟨⟨0, 0, 0, 0, 0, 0, 0, none⟩⟩

/-- Modelled from the spec: `grow()` increments the age by one simulation
step (spec §4.4). -/
def Particule.grow (p : Particule) : Particule := { p with age := p.age + 1 }

/-- Modelled from the spec: `isDead` is `age ≥ max age` (spec §3). -/
def Particule.isDead (p : Particule) : Bool := decide (p.maxAge ≤ p.age)

/-- Modelled from the spec: `layer.ts` and the canvas/map bound objects are
absent from `src/`.  The simulation only needs the inverse projection
`canvasToMap`, the particle reset used on death, and `distort`, which writes
the projected displacement target; all three are kept abstract here. -/
structure LayerM where
  canvasToMap : ℚ → ℚ → ℚ × ℚ
  resetParticule : Particule → Particule
  distort : ℚ → ℚ → ℚ → ℚ → Vector → ℚ × ℚ

/-- `Windy.getParticuleWind` (windy.ts lines 401-428): inverse-project the
particle position, wrap the longitude into [-180, 180), sample the grid at
the wrapped longitude, copy intensity/waveHeight onto the particle, and let
`distort` set the particle target. -/
def getParticuleWind (L : LayerM) (sample : ℚ → ℚ → Vector) (p : Particule) :
    Particule × Vector :=
  let lngLat := L.canvasToMap p.x p.y
  let lamW := wrapLon lngLat.1
  let wind := sample lamW lngLat.2
  let t := L.distort lamW lngLat.2 p.x p.y wind
  ({ p with
      intensitySq := wind.intensitySq
      waveHeight := wind.waveHeight
      xt := t.1
      yt := t.2 }, wind)

/-- The per-particle body of `Windy.evolve` (windy.ts lines 447-454): grow,
reset on death, sample the wind, and hand the pair to the animation bucket. -/
def evolveParticle (L : LayerM) (sample : ℚ → ℚ → Vector) (p : Particule) :
    Particule × Vector :=
  let p1 := p.grow
  let p2 := if p1.isDead then L.resetParticule p1 else p1
  getParticuleWind L sample p2

/-- The simulation-loop state touched by `Windy.frame` (windy.ts lines 50-51,
432-455): the timestamp of the last executed tick, the frame-time threshold
`1000 / frameRate`, the particle pool and the animation bucket contents
(modelled from the spec as the per-frame list of bucketed particle/wind
pairs, since `animationBucket.ts` is absent from `src/`). -/
structure SimState where
  thenT : ℚ
  frameTime : ℚ
  particles : List Particule
  bucket : List (Particule × Vector)
deriving DecidableEq, Repr

/-- `Windy.evolve` (windy.ts lines 445-455): clear the bucket, then run the
per-particle body over the whole pool, rebuilding the bucket. -/
def evolveStep (L : LayerM) (sample : ℚ → ℚ → Vector) (s : SimState) : SimState :=
  let results := s.particles.map (evolveParticle L sample)
  { s with particles := results.map Prod.fst, bucket := results }

/-- Observable actions of one frame callback, used to state ordering claims:
re-scheduling, the per-particle evolve actions, and drawing. -/
inductive Ev where
  | sched : Ev
  | aged : ℕ → Ev
  | reset : ℕ → Ev
  | sampled : ℕ → Ev
  | bucketed : ℕ → Ev
  | draw : Ev
deriving DecidableEq, Repr

/-- The evolve actions of a tick, particle by particle in pool order: each
particle is aged, repositioned if dead, its wind resampled, and rebucketed. -/
def particleEvents (s : SimState) : List Ev :=
  (List.range s.particles.length).flatMap (fun i =>
    Ev.aged i ::
      ((if (s.particles.getD i default).grow.isDead then [Ev.reset i] else []) ++
        [Ev.sampled i, Ev.bucketed i]))

/-- `Windy.frame` (windy.ts lines 432-443): re-schedule first, then if the
elapsed time exceeds the threshold, update `then` to `now - (delta % frameTime)`
and run evolve followed by draw; otherwise do nothing further.  The returned
event list records the actions in order; drawing itself is external rendering
(spec §1 excludes the literal pixel calls). -/
def frameStep (L : LayerM) (sample : ℚ → ℚ → Vector) (s : SimState) (now : ℚ) :
    SimState × List Ev :=
  let delta := now - s.thenT
  if delta > s.frameTime then
    let s1 : SimState := { s with thenT := now - jsMod delta s.frameTime }
    (evolveStep L sample s1, Ev.sched :: (particleEvents s1 ++ [Ev.draw]))
  else (s, [Ev.sched])

section Lemmas

lemma jsMod_bounds_of_nonneg (a n : ℚ) (hn : 0 < n) (ha : 0 ≤ a) :
    0 ≤ jsMod a n ∧ jsMod a n < n := by
  have hq : 0 ≤ a / n := div_nonneg ha hn.le
  have h1 : ((⌊a / n⌋ : ℤ) : ℚ) ≤ a / n := Int.floor_le _
  have h2 : a / n < ((⌊a / n⌋ : ℤ) : ℚ) + 1 := Int.lt_floor_add_one _
  have hna : n * (a / n) = a := by
    rw [mul_comm]
    exact div_mul_cancel₀ a hn.ne.symm
  have h3 : n * ((⌊a / n⌋ : ℤ) : ℚ) ≤ a := by
    have := mul_le_mul_of_nonneg_left h1 hn.le
    rwa [hna] at this
  have h4 : a < n * ((⌊a / n⌋ : ℤ) : ℚ) + n := by
    have := mul_lt_mul_of_pos_left h2 hn
    rw [hna, mul_add, mul_one] at this
    exact this
  unfold jsMod truncQ
  rw [if_pos hq]
  constructor
  · linarith
  · linarith

lemma jsMod_bounds_of_neg (a n : ℚ) (hn : 0 < n) (ha : a < 0) :
    -n < jsMod a n ∧ jsMod a n ≤ 0 := by
  have hq : ¬ (0 ≤ a / n) := by
    rw [not_le]
    exact div_neg_of_neg_of_pos ha hn
  have h1 : a / n ≤ ((⌈a / n⌉ : ℤ) : ℚ) := Int.le_ceil _
  have h2 : ((⌈a / n⌉ : ℤ) : ℚ) < a / n + 1 := Int.ceil_lt_add_one _
  have hna : n * (a / n) = a := by
    rw [mul_comm]
    exact div_mul_cancel₀ a hn.ne.symm
  have h3 : a ≤ n * ((⌈a / n⌉ : ℤ) : ℚ) := by
    have := mul_le_mul_of_nonneg_left h1 hn.le
    rwa [hna] at this
  have h4 : n * ((⌈a / n⌉ : ℤ) : ℚ) < a + n := by
    have := mul_lt_mul_of_pos_left h2 hn
    rw [mul_add, mul_one, hna] at this
    exact this
  unfold jsMod truncQ
  rw [if_neg hq]
  constructor
  · linarith
  · linarith

lemma wrap360_bounds (x : ℚ) : 0 ≤ wrap360 x ∧ wrap360 x < 360 := by
  unfold wrap360
  rcases le_or_lt 0 x with hx | hx
  · have h1 := jsMod_bounds_of_nonneg x 360 (by norm_num) hx
    exact jsMod_bounds_of_nonneg (jsMod x 360 + 360) 360 (by norm_num) (by linarith [h1.1])
  · have h1 := jsMod_bounds_of_neg x 360 (by norm_num) hx
    exact jsMod_bounds_of_nonneg (jsMod x 360 + 360) 360 (by norm_num) (by linarith [h1.1])

lemma wrapLon_bounds (lng : ℚ) : -180 ≤ wrapLon lng ∧ wrapLon lng < 180 := by
  unfold wrapLon
  have h := wrap360_bounds (lng + 180)
  constructor
  · linarith [h.1]
  · linarith [h.2]

end Lemmas

/-- Claim C10: before every wind sample, the particle longitude obtained from
`canvasToMap` is wrapped by `((lng+180) % 360 + 360) % 360 - 180`, the sampled
wind is taken exactly at that wrapped longitude, and every such wrapped
longitude lies in [-180, 180) regardless of the input world-copy longitude. -/
theorem c10_wrapped_longitude (L : LayerM) (sample : ℚ → ℚ → Vector) (p : Particule) :
    (getParticuleWind L sample p).2 =
      sample (wrapLon (L.canvasToMap p.x p.y).1) (L.canvasToMap p.x p.y).2 ∧
    (-180 ≤ wrapLon (L.canvasToMap p.x p.y).1 ∧
      wrapLon (L.canvasToMap p.x p.y).1 < 180) ∧
    (∀ lng : ℚ, -180 ≤ wrapLon lng ∧ wrapLon lng < 180) := by
  refine ⟨rfl, wrapLon_bounds _, fun lng => wrapLon_bounds lng⟩

/-- Claim C1: `IrregularGrid.get` is total (it always produces a Vector), and
it returns the zero vector whenever the normalized query is outside the grid
bounds by more than EPS, whenever a bracketing search fails, and whenever any
of the four corner cells is null/undefined. -/
theorem c1_sentinel (g : IrregularGrid) (lam phi : ℚ) :
    (g.outOfRange lam phi = true → g.get lam phi = zeroVec) ∧
    (g.lonBracket lam = none ∨ g.latBracket phi = none → g.get lam phi = zeroVec) ∧
    (∀ li0 li1 ti0 ti1, g.lonBracket lam = some (li0, li1) →
      g.latBracket phi = some (ti0, ti1) →
      (g.dataAt (ti0 * g.width + li0) = none ∨ g.dataAt (ti0 * g.width + li1) = none ∨
       g.dataAt (ti1 * g.width + li0) = none ∨ g.dataAt (ti1 * g.width + li1) = none) →
      g.get lam phi = zeroVec) := by
  unfold IrregularGrid.get IrregularGrid.getCore
  by_cases hr : g.outOfRange lam phi
  · simp [hr]
  · simp only [hr, Bool.false_eq_true, if_false]
    refine ⟨fun h => h.elim, ?_, ?_⟩
    · rintro (h | h) <;> rw [h] <;> cases hx : g.latBracket phi <;>
        cases hy : g.lonBracket lam <;> simp
    · rintro li0 li1 ti0 ti1 h1 h2 (h3 | h3 | h3 | h3) <;> rw [h1, h2] <;>
        simp only [] <;>
        cases ha : g.dataAt (ti0 * g.width + li0) <;>
        cases hb : g.dataAt (ti0 * g.width + li1) <;>
        cases hc : g.dataAt (ti1 * g.width + li0) <;>
        cases hd : g.dataAt (ti1 * g.width + li1) <;>
        simp_all

/-- A tiny concrete grid used to witness the sentinel claim. -/
def gOne : IrregularGrid := ⟨[some ⟨1, 2, none⟩], [0], [0]⟩

/-- Witness for C1: the grid `gOne` queried far east is out of range by more
than EPS and `get` indeed returns the zero vector. -/
theorem c1_sentinel_witness :
    gOne.outOfRange 500 0 = true ∧ gOne.get 500 0 = zeroVec :=
  ⟨by with_unfolding_all decide, (c1_sentinel gOne 500 0).1 (by with_unfolding_all decide)⟩

lemma scan_keeps_u (rs : List Rec) (acc : Option Rec × Option Rec × Option Rec)
    (h : ∀ r ∈ rs, isURec r = false) : (rs.foldl classifyStep acc).1 = acc.1 := by
  induction rs generalizing acc with
  | nil => rfl
  | cons r rs ih =>
    have hr : isURec r = false := h r (by simp)
    have ht : ∀ x ∈ rs, isURec x = false := fun x hx => h x (by simp [hx])
    rw [List.foldl_cons, ih _ ht]
    unfold classifyStep
    rw [hr]
    by_cases hv : isVRec r <;> simp [hv]

lemma scan_keeps_v (rs : List Rec) (acc : Option Rec × Option Rec × Option Rec)
    (h : ∀ r ∈ rs, isVRec r = false) : (rs.foldl classifyStep acc).2.1 = acc.2.1 := by
  induction rs generalizing acc with
  | nil => rfl
  | cons r rs ih =>
    have hr : isVRec r = false := h r (by simp)
    have ht : ∀ x ∈ rs, isVRec x = false := fun x hx => h x (by simp [hx])
    rw [List.foldl_cons, ih _ ht]
    unfold classifyStep
    rw [hr]
    by_cases hu : isURec r <;> simp [hu]

/-- Claim C3: if no input record classifies as a u-component, or none
classifies as a v-component, `setData` rejects the load as a no-op and the
whole grid-derived state is unchanged. -/
theorem c3_reject_is_noop (st : WindyState) (d : InputData)
    (h : (∀ r ∈ d.records, isURec r = false) ∨ (∀ r ∈ d.records, isVRec r = false)) :
    setData st d = st := by
  by_cases hA : d.isArray
  · rcases hsc : scanRecords d.records with ⟨u, v2, w2⟩
    rcases h with hU | hV
    · have h1 : (scanRecords d.records).1 = none :=
        scan_keeps_u d.records (none, none, none) hU
      rw [hsc] at h1
      simp only at h1
      subst h1
      unfold setData
      rw [if_pos hA, hsc]
    · have h1 : (scanRecords d.records).2.1 = none :=
        scan_keeps_v d.records (none, none, none) hV
      rw [hsc] at h1
      simp only at h1
      subst h1
      unfold setData
      rw [if_pos hA, hsc]
      cases u <;> rfl
  · have hA2 : d.isArray = false := by
      revert hA
      cases d.isArray <;> simp
    unfold setData
    rw [hA2]
    simp

/-- A record that classifies as neither u nor v (wave-height class). -/
def recWaveOnly : Rec := ⟨⟨3, 1, 0, 0, 1, 1, 1, 1⟩, [7]⟩

/-- Input with only a wave-height record: the load must be rejected. -/
def dNoU : InputData := ⟨true, [recWaveOnly], none, none⟩

/-- An arbitrary prior state for the no-op witnesses. -/
def stPrev : WindyState :=
  ⟨some (GridVariant.regular [⟨1, 1, none⟩] 2 3 4 5 6 7), false, 2, 3, 4, 5, 6, 7⟩

/-- Witness for C3: loading a record list with no u-component leaves the
previous state exactly in place. -/
theorem c3_reject_is_noop_witness : setData stPrev dNoU = stPrev :=
  c3_reject_is_noop stPrev dNoU (Or.inl (by with_unfolding_all decide))

/-- The u-component record of the C4 failing input (1 x 1 regular grid). -/
def uRecC4 : Rec := ⟨⟨2, 2, 10, 20, 1, 1, 1, 1⟩, [5]⟩

/-- The v-component record of the C4 failing input. -/
def vRecC4 : Rec := ⟨⟨2, 3, 10, 20, 1, 1, 1, 1⟩, [6]⟩

/-- The C4 failing input: a well-formed regular 1 x 1 u/v pair. -/
def dRegC4 : InputData := ⟨true, [uRecC4, vRecC4], none, none⟩

/-- Claim C4 evaluation: on a well-formed regular 1 x 1 load the Vector array
handed to the constructed grid has length 2 while `ni * nj = 1`, because the
regular branch of `setData` pushes the built vectors a second time
(windy.ts lines 136-139 and again 208-211). -/
theorem c4_code_bug_eval :
    gridDataLength (setData stPrev dRegC4) = 2 ∧
    (setData stPrev dRegC4).ni * (setData stPrev dRegC4).nj = 1 := by
  constructor
  · with_unfolding_all rfl
  · with_unfolding_all rfl

/-- The C5 scenario grid: latitudes [10, 0], longitudes [170, -170] crossing
the IDL, with distinct u values on the two longitude columns. -/
def gIdl : IrregularGrid :=
  ⟨[some ⟨1, 0, none⟩, some ⟨3, 0, none⟩, some ⟨1, 0, none⟩, some ⟨3, 0, none⟩],
   [10, 0], [170, -170]⟩

/-- Claim C5: on the IDL-crossing scenario grid, the query at longitude 180 is
not rejected: the unrolled longitudes are [170, 190], the bracketing pair is
(0, 1), the interpolation weight is 1/2 (strictly between the two nodes), and
`get` returns the proper blend rather than the zero vector. -/
theorem c5_idl_bracketing :
    gIdl.crossesIDL = true ∧
    gIdl.unrolledLongitudes = [170, 190] ∧
    (gIdl.getCore 180 5).map (fun bi => (bi.lonIdx0, bi.lonIdx1)) = some (0, 1) ∧
    (gIdl.getCore 180 5).map (fun bi => bi.x) = some (1 / 2) ∧
    gIdl.get 180 5 = ⟨2, 0, none⟩ := by
  refine ⟨by with_unfolding_all rfl, by with_unfolding_all rfl, ?_, ?_, ?_⟩
  · with_unfolding_all rfl
  · with_unfolding_all rfl
  · with_unfolding_all rfl

/-- Claim C6, counterexample: all four corners have a defined waveHeight, one
of them zero; the claim then asks for the blended weighted sum (here 1), but
`interpolation` leaves the wave height undefined because the code tests JS
truthiness, not definedness. -/
theorem c6_counterexample :
    (Vector.mk 0 0 (some 1)).waveHeight.isSome = true ∧
    (Vector.mk 0 0 (some 0)).waveHeight.isSome = true ∧
    (interpolation 0 0 (Vector.mk 0 0 (some 1)) (Vector.mk 0 0 (some 0))
      (Vector.mk 0 0 (some 1)) (Vector.mk 0 0 (some 1))).waveHeight = none ∧
    (interpolation 0 0 (Vector.mk 0 0 (some 1)) (Vector.mk 0 0 (some 0))
      (Vector.mk 0 0 (some 1)) (Vector.mk 0 0 (some 1))).waveHeight ≠
      some (1 * ((1 - 0) * (1 - 0)) + 0 * (0 * (1 - 0)) + 1 * ((1 - 0) * 0) +
        1 * (0 * 0)) := by
  refine ⟨rfl, rfl, by with_unfolding_all rfl, ?_⟩
  rw [show (interpolation 0 0 (Vector.mk 0 0 (some 1)) (Vector.mk 0 0 (some 0))
      (Vector.mk 0 0 (some 1)) (Vector.mk 0 0 (some 1))).waveHeight = none from
      by with_unfolding_all rfl]
  exact Option.noConfusion

/-- Claim C6 as amended: the blended wave height is produced exactly when all
four corner wave heights are defined and nonzero (JS-truthy), it then equals
the weighted sum clamped below at 0, it is undefined otherwise, and any
produced wave height is nonnegative. -/
theorem c6_amended_waveheight (x y : ℚ) (g00 g10 g01 g11 : Vector) :
    (∀ w00 w10 w01 w11 : ℚ,
      g00.waveHeight = some w00 → w00 ≠ 0 →
      g10.waveHeight = some w10 → w10 ≠ 0 →
      g01.waveHeight = some w01 → w01 ≠ 0 →
      g11.waveHeight = some w11 → w11 ≠ 0 →
      (interpolation x y g00 g10 g01 g11).waveHeight =
        some (max 0 (w00 * ((1 - x) * (1 - y)) + w10 * (x * (1 - y)) +
          w01 * ((1 - x) * y) + w11 * (x * y)))) ∧
    ((whTruthy g00.waveHeight = false ∨ whTruthy g10.waveHeight = false ∨
      whTruthy g01.waveHeight = false ∨ whTruthy g11.waveHeight = false) →
      (interpolation x y g00 g10 g01 g11).waveHeight = none) ∧
    (∀ w : ℚ, (interpolation x y g00 g10 g01 g11).waveHeight = some w → 0 ≤ w) := by
  refine ⟨?_, ?_, ?_⟩
  · intro w00 w10 w01 w11 h00 n00 h10 n10 h01 n01 h11 n11
    have hc : (whTruthy (some w00) && whTruthy (some w10) &&
        whTruthy (some w01) && whTruthy (some w11)) = true := by
      simp [whTruthy, n00, n10, n01, n11]
    simp only [interpolation, h00, h10, h01, h11, hc, if_true, Option.getD_some]
    rcases lt_or_le (w00 * ((1 - x) * (1 - y)) + w10 * (x * (1 - y)) +
        w01 * ((1 - x) * y) + w11 * (x * y)) 0 with hs | hs
    · rw [if_pos hs, max_eq_left hs.le]
    · rw [if_neg (not_lt.mpr hs), max_eq_right hs]
  · intro h
    simp only [interpolation]
    rcases h with h | h | h | h <;> simp [h]
  · intro w hw
    by_cases hc : (whTruthy g00.waveHeight && whTruthy g10.waveHeight &&
        whTruthy g01.waveHeight && whTruthy g11.waveHeight) = true
    · simp only [interpolation, hc, if_true, Option.some.injEq] at hw
      subst hw
      split
      · exact le_refl 0
      · exact le_of_not_lt (by assumption)
    · simp only [interpolation, hc, if_false] at hw
      exact absurd hw (by simp)

/-- Witness for the amended C6: four corners with wave heights 1, one blend at
the corner weights, produces the clamped weighted sum. -/
theorem c6_amended_witness :
    (interpolation 0 0 (Vector.mk 0 0 (some 1)) (Vector.mk 0 0 (some 1))
      (Vector.mk 0 0 (some 1)) (Vector.mk 0 0 (some 1))).waveHeight =
      some (max 0 (1 * ((1 - 0) * (1 - 0)) + 1 * (0 * (1 - 0)) + 1 * ((1 - 0) * 0) +
        1 * (0 * 0))) :=
  (c6_amended_waveheight 0 0 _ _ _ _).1 1 1 1 1 rfl one_ne_zero rfl one_ne_zero rfl
    one_ne_zero rfl one_ne_zero

/-- An IDL-crossing grid whose third longitude sits exactly EPS below the
second one after normalization. -/
def gEdge : IrregularGrid :=
  ⟨[some ⟨1, 1, none⟩], [0], [170, -170, -170 - 1 / 1000000]⟩

/-- Claim C7, counterexample: on `gEdge` the unrolled array is
[170, 190, 190 - EPS]; its last element does not exceed its predecessor by
more than -EPS (the deficit is exactly EPS, and neither lift fires on an exact
EPS backward step), so the array is not strictly increasing within EPS in the
claimed strict sense. -/
theorem c7_counterexample :
    gEdge.crossesIDL = true ∧
    gEdge.unrolledLongitudes = [170, 190, 190 - 1 / 1000000] ∧
    ¬ (gEdge.unrolledLongitudes.getD 1 0 - EPS < gEdge.unrolledLongitudes.getD 2 0) := by
  refine ⟨by with_unfolding_all rfl, by with_unfolding_all rfl, ?_⟩
  rw [show gEdge.unrolledLongitudes = [170, 190, 190 - 1 / 1000000] from
    by with_unfolding_all rfl]
  simp only [List.getD, List.get?]
  norm_num [EPS]

lemma unrollStep_ge (prevN prevU v0 : ℚ) : prevU - EPS ≤ unrollStep prevN prevU v0 := by
  unfold unrollStep
  set v1 := if v0 + EPS < prevN then v0 + 360 else v0 with hv1
  by_cases h : v1 + EPS < prevU
  · rw [if_pos h]
    have hceil : (prevU - v1) / 360 ≤ ((⌈(prevU - v1) / 360⌉ : ℤ) : ℚ) := Int.le_ceil _
    have h2 : prevU - v1 ≤ 360 * ((⌈(prevU - v1) / 360⌉ : ℤ) : ℚ) := by
      have := mul_le_mul_of_nonneg_left hceil (by norm_num : (0 : ℚ) ≤ 360)
      calc prevU - v1 = 360 * ((prevU - v1) / 360) := by ring
        _ ≤ 360 * ((⌈(prevU - v1) / 360⌉ : ℤ) : ℚ) := this
    have hE : (0 : ℚ) < EPS := by norm_num [EPS]
    linarith
  · rw [if_neg h]
    linarith [not_lt.mp h]

lemma unrollAux_chain (ns : List ℚ) : ∀ prevN prevU : ℚ,
    List.Chain' (fun a b => a - EPS ≤ b) (prevU :: unrollAux prevN prevU ns) := by
  induction ns with
  | nil => intro prevN prevU; simp [unrollAux]
  | cons n ns ih =>
    intro prevN prevU
    unfold unrollAux
    exact List.Chain'.cons (unrollStep_ge prevN prevU n) (ih n (unrollStep prevN prevU n))

lemma unrolled_chain (l : List ℚ) :
    List.Chain' (fun a b => a - EPS ≤ b) (unrolled l) := by
  cases l with
  | nil => simp [unrolled]
  | cons n ns => exact unrollAux_chain ns n n

/-- Claim C7 as amended: for every IrregularGrid constructed with crossesIDL
true, each element of the precomputed unrolled longitude array is at least its
predecessor minus EPS (the strict version fails only when a normalized input
steps back by exactly EPS, as in the counterexample). -/
theorem c7_amended_unrolled (g : IrregularGrid) (hcross : g.crossesIDL = true) :
    List.Chain' (fun a b => a - EPS ≤ b) g.unrolledLongitudes := by
  unfold IrregularGrid.unrolledLongitudes
  exact unrolled_chain g.normLongitudes

/-- Witness for the amended C7, on the IDL scenario grid. -/
theorem c7_amended_unrolled_witness :
    List.Chain' (fun a b => a - EPS ≤ b) gIdl.unrolledLongitudes :=
  c7_amended_unrolled gIdl (by with_unfolding_all rfl)

lemma mkBlend_weight_bounds (g : IrregularGrid) (ql phi : ℚ) (li0 li1 ti0 ti1 : ℕ)
    (v00 v10 v01 v11 : Vector) :
    0 ≤ (mkBlend g ql phi li0 li1 ti0 ti1 v00 v10 v01 v11).x ∧
    (mkBlend g ql phi li0 li1 ti0 ti1 v00 v10 v01 v11).x ≤ 1 ∧
    0 ≤ (mkBlend g ql phi li0 li1 ti0 ti1 v00 v10 v01 v11).y ∧
    (mkBlend g ql phi li0 li1 ti0 ti1 v00 v10 v01 v11).y ≤ 1 ∧
    ((mkBlend g ql phi li0 li1 ti0 ti1 v00 v10 v01 v11).lon1 =
        (mkBlend g ql phi li0 li1 ti0 ti1 v00 v10 v01 v11).lon0 →
      (mkBlend g ql phi li0 li1 ti0 ti1 v00 v10 v01 v11).x = 0) ∧
    ((mkBlend g ql phi li0 li1 ti0 ti1 v00 v10 v01 v11).lat1 =
        (mkBlend g ql phi li0 li1 ti0 ti1 v00 v10 v01 v11).lat0 →
      (mkBlend g ql phi li0 li1 ti0 ti1 v00 v10 v01 v11).y = 0) := by
  unfold mkBlend
  simp only []
  refine ⟨le_max_left _ _, max_le (by norm_num) (min_le_left _ _),
    le_max_left _ _, max_le (by norm_num) (min_le_left _ _), ?_, ?_⟩
  · intro he
    simp only [List.getD_eq_getElem?_getD] at he ⊢
    rw [if_neg (by simp [he])]
    norm_num
  · intro he
    simp only [List.getD_eq_getElem?_getD] at he ⊢
    rw [if_neg (by simp [he])]
    norm_num

lemma getCore_inv (g : IrregularGrid) (lam phi : ℚ) (bi : BlendInput)
    (h : g.getCore lam phi = some bi) :
    ∃ li0 li1 ti0 ti1 v00 v10 v01 v11,
      bi = mkBlend g (g.queryLon lam) phi li0 li1 ti0 ti1 v00 v10 v01 v11 := by
  unfold IrregularGrid.getCore at h
  by_cases hr : g.outOfRange lam phi
  · rw [if_pos hr] at h
    exact absurd h (by simp)
  · rw [if_neg hr] at h
    split at h
    · split at h
      · exact ⟨_, _, _, _, _, _, _, _, (Option.some.inj h).symm⟩
      · exact absurd h (by simp)
    · exact absurd h (by simp)

/-- Claim C9: whenever a query reaches the bilinear blend, the interpolation
weights are clamped into [0, 1], and a degenerate bracket (equal corner
longitudes, or equal corner latitudes) yields weight 0 rather than a division
by zero. -/
theorem c9_weights_safe (g : IrregularGrid) (lam phi : ℚ) (bi : BlendInput)
    (h : g.getCore lam phi = some bi) :
    0 ≤ bi.x ∧ bi.x ≤ 1 ∧ 0 ≤ bi.y ∧ bi.y ≤ 1 ∧
    (bi.lon1 = bi.lon0 → bi.x = 0) ∧ (bi.lat1 = bi.lat0 → bi.y = 0) := by
  obtain ⟨li0, li1, ti0, ti1, v00, v10, v01, v11, hbi⟩ := getCore_inv g lam phi bi h
  subst hbi
  exact mkBlend_weight_bounds g (g.queryLon lam) phi li0 li1 ti0 ti1 v00 v10 v01 v11

/-- The concrete blend input that `gIdl.getCore 180 5` produces. -/
def biIdl : BlendInput :=
  ⟨0, 1, 0, 1, 170, 190, 10, 0, 1 / 2, 1 / 2,
    ⟨1, 0, none⟩, ⟨3, 0, none⟩, ⟨1, 0, none⟩, ⟨3, 0, none⟩⟩

/-- Witness for C9 at the concrete IDL query. -/
theorem c9_weights_safe_witness :
    gIdl.getCore 180 5 = some biIdl ∧
    (0 ≤ biIdl.x ∧ biIdl.x ≤ 1 ∧ 0 ≤ biIdl.y ∧ biIdl.y ≤ 1 ∧
      (biIdl.lon1 = biIdl.lon0 → biIdl.x = 0) ∧ (biIdl.lat1 = biIdl.lat0 → biIdl.y = 0)) :=
  ⟨by with_unfolding_all rfl,
   c9_weights_safe gIdl 180 5 biIdl (by with_unfolding_all rfl)⟩

/-- A one-particle state with an integer frame time, used for the C8 boundary
counterexample. -/
def sEdge : SimState := ⟨0, 100, [⟨0, 0, 0, 0, 0, 5, 0, none⟩], []⟩

/-- A trivial layer for concrete simulation runs. -/
def layerId : LayerM := ⟨fun a b => (a, b), fun p => p, fun _ _ _ _ _ => (0, 0)⟩

/-- A zero-wind sampler for concrete simulation runs. -/
def sampleZero : ℚ → ℚ → Vector := fun _ _ => zeroVec

/-- Claim C8, counterexample: at elapsed time exactly equal to the frame-time
threshold (frameRate 10, frameTime 100 ms, delta 100 ms) the elapsed time is
not below the threshold, yet the callback does no simulation work: the code
throttles on `delta > frameTime`, not on `delta >= frameTime` as the claimed
split (below skips, otherwise evolves) would require. -/
theorem c8_counterexample :
    ¬ ((100 : ℚ) - sEdge.thenT < sEdge.frameTime) ∧
    frameStep layerId sampleZero sEdge 100 = (sEdge, [Ev.sched]) ∧
    Ev.aged 0 ∉ (frameStep layerId sampleZero sEdge 100).2 := by
  refine ⟨?_, ?_, ?_⟩
  · rw [show sEdge.thenT = 0 from rfl, show sEdge.frameTime = 100 from rfl]
    norm_num
  · rw [show frameStep layerId sampleZero sEdge 100 = (sEdge, [Ev.sched]) from
      by with_unfolding_all rfl]
  · rw [show frameStep layerId sampleZero sEdge 100 = (sEdge, [Ev.sched]) from
      by with_unfolding_all rfl]
    simp

/-- Claim C8 as amended: a frame whose elapsed time does not strictly exceed
the threshold only re-schedules and changes nothing; a frame whose elapsed
time strictly exceeds it produces the trace (schedule, per-particle evolve
actions, draw): every particle in the pool is aged, resampled and rebucketed
in that trace, the draw action is the last action and never occurs among the
evolve actions, and the resulting state is the evolved pool with the rebuilt
bucket. -/
theorem c8_amended_throttle (L : LayerM) (sample : ℚ → ℚ → Vector) (s : SimState)
    (now : ℚ) :
    (¬ (now - s.thenT > s.frameTime) → frameStep L sample s now = (s, [Ev.sched])) ∧
    (now - s.thenT > s.frameTime →
      (frameStep L sample s now).2 = Ev.sched :: (particleEvents s ++ [Ev.draw]) ∧
      (frameStep L sample s now).1.particles =
        s.particles.map (fun p => (evolveParticle L sample p).1) ∧
      (frameStep L sample s now).1.bucket = s.particles.map (evolveParticle L sample) ∧
      Ev.draw ∉ particleEvents s ∧
      (∀ i, i < s.particles.length →
        Ev.aged i ∈ particleEvents s ∧ Ev.sampled i ∈ particleEvents s ∧
          Ev.bucketed i ∈ particleEvents s)) := by
  constructor
  · intro h
    unfold frameStep
    rw [if_neg h]
  · intro h
    have hpe : particleEvents { s with thenT := now - jsMod (now - s.thenT) s.frameTime } =
        particleEvents s := rfl
    unfold frameStep
    rw [if_pos h]
    simp only []
    refine ⟨by rw [hpe], ?_, ?_, ?_, ?_⟩
    · unfold evolveStep
      simp [List.map_map, Function.comp]
    · unfold evolveStep
      simp
    · unfold particleEvents
      intro hmem
      rcases List.mem_flatMap.mp hmem with ⟨i, _, hin⟩
      rcases List.mem_cons.mp hin with h1 | h1
      · exact Ev.noConfusion h1
      rcases List.mem_append.mp h1 with h2 | h2
      · by_cases hd : (s.particles.getD i default).grow.isDead
        · rw [if_pos hd] at h2
          rcases List.mem_singleton.mp h2 with h3
          exact Ev.noConfusion h3
        · rw [if_neg hd] at h2
          exact absurd h2 (List.not_mem_nil _)
      · rcases List.mem_cons.mp h2 with h3 | h3
        · exact Ev.noConfusion h3
        rcases List.mem_singleton.mp h3 with h4
        exact Ev.noConfusion h4
    · intro i hi
      refine ⟨?_, ?_, ?_⟩
      · exact List.mem_flatMap.mpr ⟨i, List.mem_range.mpr hi, by simp⟩
      · refine List.mem_flatMap.mpr ⟨i, List.mem_range.mpr hi, ?_⟩
        simp only [List.mem_cons, List.mem_append]
        right
        right
        simp
      · refine List.mem_flatMap.mpr ⟨i, List.mem_range.mpr hi, ?_⟩
        simp only [List.mem_cons, List.mem_append]
        right
        right
        simp

/-- Witness for the amended C8: a concrete over-threshold frame runs the full
work trace, and a concrete under-threshold frame only re-schedules. -/
theorem c8_amended_throttle_witness :
    frameStep layerId sampleZero sEdge 101 ≠ (sEdge, [Ev.sched]) ∧
    frameStep layerId sampleZero sEdge 50 = (sEdge, [Ev.sched]) := by
  constructor
  · have h := (c8_amended_throttle layerId sampleZero sEdge 101).2 (by
      rw [show sEdge.thenT = 0 from rfl, show sEdge.frameTime = 100 from rfl]
      norm_num)
    intro hcontra
    have h2 := h.1
    rw [hcontra] at h2
    have h3 : ([Ev.sched] : List Ev) = Ev.sched :: (particleEvents sEdge ++ [Ev.draw]) := h2
    have hd : Ev.draw ∈ Ev.sched :: (particleEvents sEdge ++ [Ev.draw]) := by simp
    rw [← h3] at hd
    simp at hd
  · exact (c8_amended_throttle layerId sampleZero sEdge 50).1 (by
      rw [show sEdge.thenT = 0 from rfl, show sEdge.frameTime = 100 from rfl]
      norm_num)

/-- Direction-aware separation of grid coordinates: consecutive values differ
by more than EPS in the monotone direction given by `asc`. -/
def sepRel (asc : Bool) (a b : ℚ) : Prop := if asc then a + EPS < b else b + EPS < a

lemma bsearchAux_bracket (arr : List ℚ) (asc : Bool) (k : ℕ)
    (hsep : ∀ a b : ℕ, a < b → b < arr.length → sepRel asc (arr.getD a 0) (arr.getD b 0)) :
    ∀ fuel left right : ℕ, right - left ≤ fuel → left ≤ k → k ≤ right →
      right < arr.length →
      ∃ i0 i1, bsearchAux arr (arr.getD k 0) asc fuel left right = (i0, i1) ∧
        left ≤ i0 ∧ i1 ≤ right ∧
        ((i0 = k ∧ i1 = k) ∨ (i1 = i0 + 1 ∧ (i0 = k ∨ i1 = k))) := by
  have hE : (0 : ℚ) < EPS := by norm_num [EPS]
  intro fuel
  induction fuel with
  | zero =>
    intro left right h1 h2 h3 h4
    exact ⟨left, right, rfl, le_refl _, le_refl _, Or.inl ⟨by omega, by omega⟩⟩
  | succ fuel ih =>
    intro left right h1 h2 h3 h4
    by_cases hg : left < right - 1
    · have hlr : left + 1 < right := by omega
      have hml : left < (left + right) / 2 := by omega
      have hmr : (left + right) / 2 < right := by omega
      simp only [bsearchAux]
      rw [if_pos hg]
      by_cases hhit : |arr.getD ((left + right) / 2) 0 - arr.getD k 0| ≤ EPS
      · rw [if_pos hhit]
        have habs := abs_le.mp hhit
        have hmk : (left + right) / 2 = k := by
          rcases Nat.lt_trichotomy ((left + right) / 2) k with hlt | heq | hgt
          · have hs := hsep _ _ hlt (by omega)
            cases hasc : asc <;> rw [hasc] at hs <;> simp only [sepRel, if_true,
              if_false, Bool.false_eq_true] at hs <;> linarith [habs.1, habs.2]
          · exact heq
          · have hs := hsep _ _ hgt (by omega)
            cases hasc : asc <;> rw [hasc] at hs <;> simp only [sepRel, if_true,
              if_false, Bool.false_eq_true] at hs <;> linarith [habs.1, habs.2]
        exact ⟨_, _, rfl, hml.le, hmr.le, Or.inl ⟨hmk, hmk⟩⟩
      · rw [if_neg hhit]
        by_cases hcmp : cmpDir asc (arr.getD ((left + right) / 2) 0) (arr.getD k 0) = true
        · rw [if_pos hcmp]
          have hmk : (left + right) / 2 ≤ k := by
            by_contra hc
            have hkm : k < (left + right) / 2 := by omega
            have hs := hsep _ _ hkm (by omega)
            cases hasc : asc <;> rw [hasc] at hs hcmp <;>
              simp only [sepRel, cmpDir, if_true, if_false, Bool.false_eq_true,
                decide_eq_true_eq] at hs hcmp <;> linarith
          obtain ⟨i0, i1, heq, hi0, hi1, hbr⟩ :=
            ih ((left + right) / 2) right (by omega) hmk h3 h4
          exact ⟨i0, i1, heq, by omega, hi1, hbr⟩
        · rw [if_neg hcmp]
          have hmk : k ≤ (left + right) / 2 := by
            by_contra hc
            have hkm : (left + right) / 2 < k := by omega
            have hs := hsep _ _ hkm (by omega)
            have hne : ¬ |arr.getD ((left + right) / 2) 0 - arr.getD k 0| ≤ EPS := hhit
            cases hasc : asc <;> rw [hasc] at hs hcmp <;>
              simp only [sepRel, cmpDir, if_true, if_false, Bool.false_eq_true,
                decide_eq_true_eq, not_lt] at hs hcmp <;> linarith
          obtain ⟨i0, i1, heq, hi0, hi1, hbr⟩ :=
            ih left ((left + right) / 2) (by omega) h2 hmk (by omega)
          exact ⟨i0, i1, heq, hi0, by omega, hbr⟩
    · simp only [bsearchAux]
      rw [if_neg hg]
      refine ⟨left, right, rfl, le_refl _, le_refl _, ?_⟩
      rcases Nat.lt_or_ge left right with hlt | hge
      · exact Or.inr ⟨by omega, by omega⟩
      · exact Or.inl ⟨by omega, by omega⟩

lemma node_between_endpoints (arr : List ℚ) (asc : Bool) (k : ℕ) (hk : k < arr.length)
    (hsep : ∀ a b : ℕ, a < b → b < arr.length → sepRel asc (arr.getD a 0) (arr.getD b 0)) :
    min (arr.getD 0 0) (arr.getD (arr.length - 1) 0) ≤ arr.getD k 0 ∧
    arr.getD k 0 ≤ max (arr.getD 0 0) (arr.getD (arr.length - 1) 0) := by
  have hE : (0 : ℚ) < EPS := by norm_num [EPS]
  cases hasc : asc
  · have hfirst : arr.getD k 0 ≤ arr.getD 0 0 := by
      rcases Nat.eq_zero_or_pos k with h0 | h0
      · rw [h0]
      · have hs := hsep 0 k h0 hk
        rw [hasc] at hs
        simp only [sepRel, Bool.false_eq_true, if_false] at hs
        linarith
    have hlast : arr.getD (arr.length - 1) 0 ≤ arr.getD k 0 := by
      by_cases hl : k = arr.length - 1
      · rw [hl]
      · have hkl : k < arr.length - 1 := by omega
        have hs := hsep k (arr.length - 1) hkl (by omega)
        rw [hasc] at hs
        simp only [sepRel, Bool.false_eq_true, if_false] at hs
        linarith
    exact ⟨le_trans (min_le_right _ _) hlast, le_trans hfirst (le_max_left _ _)⟩
  · have hfirst : arr.getD 0 0 ≤ arr.getD k 0 := by
      rcases Nat.eq_zero_or_pos k with h0 | h0
      · rw [h0]
      · have hs := hsep 0 k h0 hk
        rw [hasc] at hs
        simp only [sepRel, if_true] at hs
        linarith
    have hlast : arr.getD k 0 ≤ arr.getD (arr.length - 1) 0 := by
      by_cases hl : k = arr.length - 1
      · rw [hl]
      · have hkl : k < arr.length - 1 := by omega
        have hs := hsep k (arr.length - 1) hkl (by omega)
        rw [hasc] at hs
        simp only [sepRel, if_true] at hs
        linarith
    exact ⟨le_trans (min_le_left _ _) hfirst, le_trans hlast (le_max_right _ _)⟩

lemma findBracketMono_node (arr : List ℚ) (asc : Bool) (k : ℕ) (hk : k < arr.length)
    (hsep : ∀ a b : ℕ, a < b → b < arr.length → sepRel asc (arr.getD a 0) (arr.getD b 0)) :
    ∃ i0 i1, findBracketMono arr (arr.getD k 0) asc = some (i0, i1) ∧
      i0 ≤ i1 ∧ i1 < arr.length ∧
      ((i0 = k ∧ i1 = k) ∨ (i1 = i0 + 1 ∧ (i0 = k ∨ i1 = k))) := by
  have hE : (0 : ℚ) < EPS := by norm_num [EPS]
  obtain ⟨hmin, hmax⟩ := node_between_endpoints arr asc k hk hsep
  have hcond : ¬ (arr.getD k 0 < min (arr.getD 0 0) (arr.getD (arr.length - 1) 0) - EPS ∨
      arr.getD k 0 > max (arr.getD 0 0) (arr.getD (arr.length - 1) 0) + EPS) := by
    push_neg
    constructor
    · linarith
    · linarith
  obtain ⟨i0, i1, heq, hi0, hi1, hbr⟩ :=
    bsearchAux_bracket arr asc k hsep arr.length 0 (arr.length - 1)
      (by omega) (by omega) (by omega) (by omega)
  refine ⟨i0, i1, ?_, ?_, by omega, hbr⟩
  · unfold findBracketMono
    rw [if_neg hcond, heq]
  · rcases hbr with ⟨h1, h2⟩ | ⟨h1, h2⟩ <;> omega

lemma foldl_min_le_init (t : List ℚ) (a : ℚ) : t.foldl min a ≤ a := by
  induction t generalizing a with
  | nil => simp
  | cons h t ih => exact le_trans (ih (min a h)) (min_le_left _ _)

lemma foldl_min_le_mem (t : List ℚ) (a x : ℚ) (hx : x ∈ t) : t.foldl min a ≤ x := by
  induction t generalizing a with
  | nil => simp at hx
  | cons h t ih =>
    rcases List.mem_cons.mp hx with rfl | hx2
    · exact le_trans (foldl_min_le_init t (min a x)) (min_le_right _ _)
    · exact ih (min a h) hx2

lemma listMinD_le_mem (l : List ℚ) (x : ℚ) (hx : x ∈ l) : listMinD l ≤ x := by
  cases l with
  | nil => simp at hx
  | cons h t =>
    rcases List.mem_cons.mp hx with rfl | hx2
    · exact foldl_min_le_init t x
    · exact foldl_min_le_mem t h x hx2

lemma init_le_foldl_max (t : List ℚ) (a : ℚ) : a ≤ t.foldl max a := by
  induction t generalizing a with
  | nil => simp
  | cons h t ih => exact le_trans (le_max_left _ _) (ih (max a h))

lemma mem_le_foldl_max (t : List ℚ) (a x : ℚ) (hx : x ∈ t) : x ≤ t.foldl max a := by
  induction t generalizing a with
  | nil => simp at hx
  | cons h t ih =>
    rcases List.mem_cons.mp hx with rfl | hx2
    · exact le_trans (le_max_right _ _) (init_le_foldl_max t (max a x))
    · exact ih (max a h) hx2

lemma mem_le_listMaxD (l : List ℚ) (x : ℚ) (hx : x ∈ l) : x ≤ listMaxD l := by
  cases l with
  | nil => simp at hx
  | cons h t =>
    rcases List.mem_cons.mp hx with rfl | hx2
    · exact init_le_foldl_max t x
    · exact mem_le_foldl_max t h x hx2

lemma getD_mem {α : Type} (l : List α) (d : α) (n : ℕ) (h : n < l.length) :
    l.getD n d ∈ l := by
  induction l generalizing n with
  | nil => simp at h
  | cons a t ih =>
    cases n with
    | zero => simp [List.getD]
    | succ m =>
      have hm : m < t.length := by simpa using h
      have := ih m hm
      simp only [List.getD_cons_succ]
      exact List.mem_cons_of_mem a this

lemma dataAt_defined (g : IrregularGrid) (idx : ℕ) (hidx : idx < g.data.length)
    (hdata : ∀ o ∈ g.data, o.isSome = true) : ∃ v, g.dataAt idx = some v := by
  have hmem : g.data.getD idx none ∈ g.data := getD_mem g.data none idx hidx
  exact Option.isSome_iff_exists.mp (hdata _ hmem)

lemma interpolation_corner00 (a b c d : Vector) :
    (interpolation 0 0 a b c d).u = a.u ∧ (interpolation 0 0 a b c d).v = a.v := by
  simp only [interpolation]
  constructor <;> ring

lemma interpolation_corner10 (a b c d : Vector) :
    (interpolation 1 0 a b c d).u = b.u ∧ (interpolation 1 0 a b c d).v = b.v := by
  simp only [interpolation]
  constructor <;> ring

lemma interpolation_corner01 (a b c d : Vector) :
    (interpolation 0 1 a b c d).u = c.u ∧ (interpolation 0 1 a b c d).v = c.v := by
  simp only [interpolation]
  constructor <;> ring

lemma interpolation_corner11 (a b c d : Vector) :
    (interpolation 1 1 a b c d).u = d.u ∧ (interpolation 1 1 a b c d).v = d.v := by
  simp only [interpolation]
  constructor <;> ring

lemma mkBlend_x_nonIDL (g : IrregularGrid) (hcross : g.crossesIDL = false)
    (ql phi : ℚ) (li0 li1 ti0 ti1 : ℕ) (v00 v10 v01 v11 : Vector) :
    (mkBlend g ql phi li0 li1 ti0 ti1 v00 v10 v01 v11).x =
      max 0 (min 1 (if g.longitudes.getD li1 0 ≠ g.longitudes.getD li0 0 then
        (ql - g.longitudes.getD li0 0) /
          (g.longitudes.getD li1 0 - g.longitudes.getD li0 0) else 0)) := by
  simp [mkBlend, hcross]

lemma mkBlend_y_eq (g : IrregularGrid) (ql phi : ℚ) (li0 li1 ti0 ti1 : ℕ)
    (v00 v10 v01 v11 : Vector) :
    (mkBlend g ql phi li0 li1 ti0 ti1 v00 v10 v01 v11).y =
      max 0 (min 1 (if g.latitudes.getD ti1 0 ≠ g.latitudes.getD ti0 0 then
        (phi - g.latitudes.getD ti0 0) /
          (g.latitudes.getD ti1 0 - g.latitudes.getD ti0 0) else 0)) := rfl

/-- A 2 x 2 grid whose cell has one null corner next to a fully defined node. -/
def gHole : IrregularGrid :=
  ⟨[some ⟨1, 2, some 3⟩, none, some ⟨6, 7, none⟩, some ⟨9, 10, none⟩],
   [0, 10], [0, 10]⟩

/-- Claim C2, counterexample: querying `get` exactly at the node (0, 0), whose
stored Vector is (1, 2, waveHeight 3), returns the zero vector instead,
because the bracketing cell contains a null corner. -/
theorem c2_counterexample :
    gHole.dataAt 0 = some ⟨1, 2, some 3⟩ ∧
    gHole.longitudes.getD 0 0 = 0 ∧ gHole.latitudes.getD 0 0 = 0 ∧
    gHole.get 0 0 = zeroVec ∧
    gHole.get 0 0 ≠ (⟨1, 2, some 3⟩ : Vector) := by
  refine ⟨by with_unfolding_all rfl, by with_unfolding_all rfl,
    by with_unfolding_all rfl, by with_unfolding_all rfl, ?_⟩
  rw [show gHole.get 0 0 = zeroVec from by with_unfolding_all rfl]
  intro hcontra
  have := congrArg Vector.u hcontra
  norm_num [zeroVec] at this

/-- Claim C2 as amended: for every IrregularGrid that does not cross the IDL,
whose longitude and latitude arrays are strictly monotone (in the direction
the constructor detects) with pairwise gaps above EPS, whose data array has
width * height entries all non-null, `get` queried exactly at a grid node
returns a Vector whose u and v components are the stored ones at that node
(the waveHeight component can still differ, per the C6 truthiness rules and
clamping). -/
theorem c2_amended_node_exact (g : IrregularGrid)
    (hcross : g.crossesIDL = false)
    (hlon : ∀ a b : ℕ, a < b → b < g.longitudes.length →
      sepRel g.lonAscending (g.longitudes.getD a 0) (g.longitudes.getD b 0))
    (hlat : ∀ a b : ℕ, a < b → b < g.latitudes.length →
      sepRel g.latAscending (g.latitudes.getD a 0) (g.latitudes.getD b 0))
    (hlen : g.data.length = g.width * g.height)
    (hdata : ∀ o ∈ g.data, o.isSome = true)
    (i j : ℕ) (hi : i < g.width) (hj : j < g.height) :
    ∃ vec : Vector, g.dataAt (j * g.width + i) = some vec ∧
      (g.get (g.longitudes.getD i 0) (g.latitudes.getD j 0)).u = vec.u ∧
      (g.get (g.longitudes.getD i 0) (g.latitudes.getD j 0)).v = vec.v := by
  have hE : (0 : ℚ) < EPS := by norm_num [EPS]
  have hiL : i < g.longitudes.length := hi
  have hjL : j < g.latitudes.length := hj
  have hq : g.queryLon (g.longitudes.getD i 0) = g.longitudes.getD i 0 := by
    simp [IrregularGrid.queryLon, hcross]
  have h1 : g.lonMin ≤ g.longitudes.getD i 0 := by
    unfold IrregularGrid.lonMin
    rw [hcross]
    simp only [Bool.false_eq_true, if_false]
    exact listMinD_le_mem _ _ (getD_mem _ _ _ hiL)
  have h2 : g.longitudes.getD i 0 ≤ g.lonMax := by
    unfold IrregularGrid.lonMax
    rw [hcross]
    simp only [Bool.false_eq_true, if_false]
    exact mem_le_listMaxD _ _ (getD_mem _ _ _ hiL)
  have h3 : g.latMin ≤ g.latitudes.getD j 0 :=
    listMinD_le_mem _ _ (getD_mem _ _ _ hjL)
  have h4 : g.latitudes.getD j 0 ≤ g.latMax :=
    mem_le_listMaxD _ _ (getD_mem _ _ _ hjL)
  have hrange : g.outOfRange (g.longitudes.getD i 0) (g.latitudes.getD j 0) = false := by
    unfold IrregularGrid.outOfRange
    rw [hq]
    have e1 := h1
    have e2 := h2
    have e3 := h3
    have e4 := h4
    simp only [List.getD_eq_getElem?_getD] at e1 e2 e3 e4
    simp only [Bool.or_eq_false_iff, decide_eq_false_iff_not, not_lt, gt_iff_lt,
      List.getD_eq_getElem?_getD]
    refine ⟨⟨⟨by linarith, by linarith⟩, by linarith⟩, by linarith⟩
  obtain ⟨li0, li1, hlonEq, hli01, hli1len, hlibr⟩ :=
    findBracketMono_node g.longitudes g.lonAscending i hiL hlon
  obtain ⟨ti0, ti1, hlatEq, hti01, hti1len, htibr⟩ :=
    findBracketMono_node g.latitudes g.latAscending j hjL hlat
  have hlonB2 : g.lonBracket (g.longitudes.getD i 0) = some (li0, li1) := by
    unfold IrregularGrid.lonBracket
    rw [hcross]
    simp only [Bool.false_eq_true, if_false]
    rw [hq]
    exact hlonEq
  have hlatB2 : g.latBracket (g.latitudes.getD j 0) = some (ti0, ti1) :=
    hlatEq
  have hidx : ∀ t l : ℕ, t < g.height → l < g.width → t * g.width + l < g.data.length := by
    intro t l ht hl
    rw [hlen]
    calc t * g.width + l < t * g.width + g.width := by omega
      _ = (t + 1) * g.width := by ring
      _ ≤ g.height * g.width := Nat.mul_le_mul_right _ (by omega)
      _ = g.width * g.height := Nat.mul_comm _ _
  have hti0h : ti0 < g.height := lt_of_le_of_lt hti01 hti1len
  have hti1h : ti1 < g.height := hti1len
  have hli0w : li0 < g.width := lt_of_le_of_lt hli01 hli1len
  have hli1w : li1 < g.width := hli1len
  obtain ⟨v00, hv00⟩ := dataAt_defined g _ (hidx ti0 li0 hti0h hli0w) hdata
  obtain ⟨v10, hv10⟩ := dataAt_defined g _ (hidx ti0 li1 hti0h hli1w) hdata
  obtain ⟨v01, hv01⟩ := dataAt_defined g _ (hidx ti1 li0 hti1h hli0w) hdata
  obtain ⟨v11, hv11⟩ := dataAt_defined g _ (hidx ti1 li1 hti1h hli1w) hdata
  have hcore : g.getCore (g.longitudes.getD i 0) (g.latitudes.getD j 0) =
      some (mkBlend g (g.queryLon (g.longitudes.getD i 0)) (g.latitudes.getD j 0)
        li0 li1 ti0 ti1 v00 v10 v01 v11) := by
    unfold IrregularGrid.getCore
    rw [hrange]
    simp only [Bool.false_eq_true, if_false]
    rw [hlonB2, hlatB2]
    simp only [hv00, hv10, hv01, hv11]
  have hget : g.get (g.longitudes.getD i 0) (g.latitudes.getD j 0) =
      interpolation
        ((mkBlend g (g.queryLon (g.longitudes.getD i 0)) (g.latitudes.getD j 0)
          li0 li1 ti0 ti1 v00 v10 v01 v11).x)
        ((mkBlend g (g.queryLon (g.longitudes.getD i 0)) (g.latitudes.getD j 0)
          li0 li1 ti0 ti1 v00 v10 v01 v11).y)
        v00 v10 v01 v11 := by
    unfold IrregularGrid.get
    rw [hcore]
    rfl
  have hlonne : ∀ a b : ℕ, a < b → b < g.longitudes.length →
      g.longitudes.getD b 0 ≠ g.longitudes.getD a 0 := by
    intro a b hab hb heq
    have hs := hlon a b hab hb
    cases hasc : g.lonAscending <;> rw [hasc] at hs <;>
      simp only [sepRel, if_true, Bool.false_eq_true, if_false] at hs <;>
      rw [heq] at hs <;> linarith
  have hlatne : ∀ a b : ℕ, a < b → b < g.latitudes.length →
      g.latitudes.getD b 0 ≠ g.latitudes.getD a 0 := by
    intro a b hab hb heq
    have hs := hlat a b hab hb
    cases hasc : g.latAscending <;> rw [hasc] at hs <;>
      simp only [sepRel, if_true, Bool.false_eq_true, if_false] at hs <;>
      rw [heq] at hs <;> linarith
  have hx : ((mkBlend g (g.queryLon (g.longitudes.getD i 0)) (g.latitudes.getD j 0)
        li0 li1 ti0 ti1 v00 v10 v01 v11).x = 0 ∧ li0 = i) ∨
      ((mkBlend g (g.queryLon (g.longitudes.getD i 0)) (g.latitudes.getD j 0)
        li0 li1 ti0 ti1 v00 v10 v01 v11).x = 1 ∧ li1 = i) := by
    rw [mkBlend_x_nonIDL g hcross, hq]
    rcases hlibr with ⟨h0, h1⟩ | ⟨h1, h0 | h0⟩
    · left
      refine ⟨?_, h0⟩
      rw [h0, h1, if_neg (by simp)]
      norm_num
    · left
      refine ⟨?_, h0⟩
      have hne := hlonne li0 li1 (by omega) hli1len
      rw [if_pos hne, h0, sub_self, zero_div]
      norm_num
    · right
      refine ⟨?_, h0⟩
      have hne := hlonne li0 li1 (by omega) hli1len
      rw [if_pos hne, ← h0, div_self (sub_ne_zero.mpr hne)]
      norm_num
  have hy : ((mkBlend g (g.queryLon (g.longitudes.getD i 0)) (g.latitudes.getD j 0)
        li0 li1 ti0 ti1 v00 v10 v01 v11).y = 0 ∧ ti0 = j) ∨
      ((mkBlend g (g.queryLon (g.longitudes.getD i 0)) (g.latitudes.getD j 0)
        li0 li1 ti0 ti1 v00 v10 v01 v11).y = 1 ∧ ti1 = j) := by
    rw [mkBlend_y_eq]
    rcases htibr with ⟨h0, h1⟩ | ⟨h1, h0 | h0⟩
    · left
      refine ⟨?_, h0⟩
      rw [h0, h1, if_neg (by simp)]
      norm_num
    · left
      refine ⟨?_, h0⟩
      have hne := hlatne ti0 ti1 (by omega) hti1len
      rw [if_pos hne, h0, sub_self, zero_div]
      norm_num
    · right
      refine ⟨?_, h0⟩
      have hne := hlatne ti0 ti1 (by omega) hti1len
      rw [if_pos hne, ← h0, div_self (sub_ne_zero.mpr hne)]
      norm_num
  rcases hx with ⟨hx0, hcol⟩ | ⟨hx1, hcol⟩ <;> rcases hy with ⟨hy0, hrow⟩ | ⟨hy1, hrow⟩
  · refine ⟨v00, ?_, ?_, ?_⟩
    · rw [← hrow, ← hcol]
      exact hv00
    · rw [hget, hx0, hy0]
      exact (interpolation_corner00 v00 v10 v01 v11).1
    · rw [hget, hx0, hy0]
      exact (interpolation_corner00 v00 v10 v01 v11).2
  · refine ⟨v01, ?_, ?_, ?_⟩
    · rw [← hrow, ← hcol]
      exact hv01
    · rw [hget, hx0, hy1]
      exact (interpolation_corner01 v00 v10 v01 v11).1
    · rw [hget, hx0, hy1]
      exact (interpolation_corner01 v00 v10 v01 v11).2
  · refine ⟨v10, ?_, ?_, ?_⟩
    · rw [← hrow, ← hcol]
      exact hv10
    · rw [hget, hx1, hy0]
      exact (interpolation_corner10 v00 v10 v01 v11).1
    · rw [hget, hx1, hy0]
      exact (interpolation_corner10 v00 v10 v01 v11).2
  · refine ⟨v11, ?_, ?_, ?_⟩
    · rw [← hrow, ← hcol]
      exact hv11
    · rw [hget, hx1, hy1]
      exact (interpolation_corner11 v00 v10 v01 v11).1
    · rw [hget, hx1, hy1]
      exact (interpolation_corner11 v00 v10 v01 v11).2

/-- A fully-populated monotone 2 x 2 grid for the amended-C2 witness. -/
def gFull : IrregularGrid :=
  ⟨[some ⟨1, 2, some 3⟩, some ⟨4, 5, none⟩, some ⟨6, 7, some 8⟩, some ⟨9, 10, some 11⟩],
   [0, 10], [0, 10]⟩

instance sepRel_decidable (asc : Bool) (a b : ℚ) : Decidable (sepRel asc a b) := by
  unfold sepRel
  infer_instance

lemma gFull_sep_lon : ∀ a b : ℕ, a < b → b < gFull.longitudes.length →
    sepRel gFull.lonAscending (gFull.longitudes.getD a 0) (gFull.longitudes.getD b 0) := by
  intro a b hab hb
  have hb2 : b < 2 := by simpa [gFull, IrregularGrid.longitudes] using hb
  interval_cases b
  · omega
  · interval_cases a
    · with_unfolding_all decide

lemma gFull_sep_lat : ∀ a b : ℕ, a < b → b < gFull.latitudes.length →
    sepRel gFull.latAscending (gFull.latitudes.getD a 0) (gFull.latitudes.getD b 0) := by
  intro a b hab hb
  have hb2 : b < 2 := by simpa [gFull, IrregularGrid.latitudes] using hb
  interval_cases b
  · omega
  · interval_cases a
    · with_unfolding_all decide

/-- Witness for the amended C2 at node (0, 0) of `gFull`. -/
theorem c2_amended_node_exact_witness :
    ∃ vec : Vector, gFull.dataAt (0 * gFull.width + 0) = some vec ∧
      (gFull.get (gFull.longitudes.getD 0 0) (gFull.latitudes.getD 0 0)).u = vec.u ∧
      (gFull.get (gFull.longitudes.getD 0 0) (gFull.latitudes.getD 0 0)).v = vec.v :=
  c2_amended_node_exact gFull (by with_unfolding_all decide) gFull_sep_lon gFull_sep_lat
    (by with_unfolding_all decide) (by with_unfolding_all decide) 0 0
    (by with_unfolding_all decide) (by with_unfolding_all decide)
